import Mathlib

/-!
Verification of the vulkan backend's health-check aggregator and backup
manager against its specification.  The definitions below are a shallow
embedding of the JavaScript source:

* probe strategies and the status route: src/unnamed/part_001
* backup manager (primary variant):      src/src/utils/backup-manager.js
* backup manager (tolerant-copy variant): src/unnamed/part_006
* backup middleware:                      src/unnamed/part_004

Asynchronous functions that always resolve are embedded as total Lean
functions; the events a callback can receive (response, socket error,
timeout, ...) are made explicit as inductive types.  The backup manager's
shared `isBackingUp` flag is modelled twice: as explicit state passing for
single-call properties, and as a small-step interleaving machine for the
concurrency properties (the JavaScript runtime is a single-threaded event
loop, so code between two `await` suspension points runs atomically).
-/

namespace Vulkan

/-! ## Probe data model (src/unnamed/part_001) -/

/-- Status of a single probe result: the source only ever produces the
strings "healthy" and "unhealthy". -/
inductive PStatus where
  | healthy
  | unhealthy
deriving DecidableEq, Repr

/-- A normalized probe result, mirroring the plain objects the probe
functions resolve with: `status`, optional `response_time`, optional
`error`. -/
structure ProbeResult where
  status : PStatus
  response_time : Option String := none
  error : Option String := none
deriving DecidableEq, Repr

/-- Events the HTTP(S) probe's callbacks can receive (part_001 lines
80-96): a full response (body drained, any status code), a request error
with an error code, or the timeout firing. -/
inductive HttpEvent where
  | responded (elapsedMs : Nat)
  | socketError (code : String)
  | timedOut
deriving DecidableEq, Repr

/-- HTTP(S) probe `checkService` (part_001 lines 65-98).  Every event
handler in the source calls `resolve`, never `reject` and never throws,
so the embedding is a total function into `ProbeResult`. -/
def checkService : HttpEvent → ProbeResult
  | .responded ms => { status := .healthy, response_time := some (toString ms ++ "ms") }
  | .socketError code => { status := .unhealthy, error := some code }
  | .timedOut => { status := .unhealthy, error := some "TIMEOUT" }

/-- Events the TCP probe's socket callbacks can receive (part_001 lines
25-40): connection success, a socket error with an OS error code, or the
socket timeout. -/
inductive TcpEvent where
  | connected (elapsedMs : Nat)
  | socketError (code : String)
  | timedOut
deriving DecidableEq, Repr

/-- TCP probe `checkTCPPort` (part_001 lines 18-42); as with the HTTP
probe, every handler resolves, so the embedding is total. -/
def checkTCPPort : TcpEvent → ProbeResult
  | .connected ms => { status := .healthy, response_time := some (toString ms ++ "ms") }
  | .socketError code => { status := .unhealthy, error := some code }
  | .timedOut => { status := .unhealthy, error := some "TIMEOUT" }

/-- Outcome of the dockerode `container.inspect()` call (part_001 lines
45-62): either it resolves with the container's running state, or it
throws (runtime unavailable, container absent) and the `catch` block
runs. -/
inductive InspectOutcome where
  | inspected (running : Bool)
  | inspectError
deriving DecidableEq, Repr

/-- Container probe `checkContainerStatus` (part_001 lines 45-62).  On a
successful inspect the result carries `response_time` "0ms" and no error
field, whatever the running state; only a thrown error produces the
generic message. -/
def checkContainerStatus : InspectOutcome → ProbeResult
  | .inspected running =>
      { status := if running then .healthy else .unhealthy,
        response_time := some "0ms" }
  | .inspectError =>
      { status := .unhealthy, error := some "Container not found or not running" }

/-! ## Aggregator (src/unnamed/part_001 lines 101-135) -/

/-- One probe event per configured target, in the configuration order of
the `services` object (part_001 lines 8-15). -/
structure ProbeInputs where
  sumeetsaini_com : HttpEvent
  arcanecodex_dev : HttpEvent
  mail : HttpEvent
  stats : HttpEvent
  laptop_tunnel : TcpEvent
  bucketbot : InspectOutcome
deriving DecidableEq, Repr

/-- Overall status of the aggregate report: the source produces the
strings "healthy" and "degraded". -/
inductive OverallStatus where
  | healthy
  | degraded
deriving DecidableEq, Repr

/-- The `results` object built by the route handler (part_001 lines
102-124): the synthetic always-healthy `vulkan` entry first, then one
entry per configured service, in insertion order. -/
def statusResults (i : ProbeInputs) : List (String × ProbeResult) :=
  [("vulkan", { status := .healthy, response_time := some "0ms" }),
   ("sumeetsaini_com", checkService i.sumeetsaini_com),
   ("arcanecodex_dev", checkService i.arcanecodex_dev),
   ("mail", checkService i.mail),
   ("stats", checkService i.stats),
   ("laptop_tunnel", checkTCPPort i.laptop_tunnel),
   ("bucketbot", checkContainerStatus i.bucketbot)]

/-- Overall status computation (part_001 lines 127-128):
`Object.values(results).every(s => s.status === 'healthy')`. -/
def overallStatus (rs : List (String × ProbeResult)) : OverallStatus :=
  if rs.all (fun kv => kv.2.status == PStatus.healthy) then .healthy else .degraded

/-- The JSON body of the status response (part_001 lines 130-134),
without the timestamp field. -/
structure AggregateReport where
  status : OverallStatus
  services : List (String × ProbeResult)
deriving DecidableEq, Repr

/-- The aggregate report produced by one GET request to the status
endpoint. -/
def statusReport (i : ProbeInputs) : AggregateReport :=
  { status := overallStatus (statusResults i), services := statusResults i }

/-! ## Timing model of the status route

The route handler (part_001 lines 108-124) awaits each probe before
starting the next: `await checkService(...)` four times, then `await
checkTCPPort(...)`, then `await checkContainerStatus(...)`.  In a
duration semantics, the elapsed time of one request is therefore the sum
of the individual probe durations, one addend per sequential `await`. -/

/-- Duration, in milliseconds, that each probe's promise takes to
resolve on one particular request. -/
structure ProbeDurations where
  sumeetsaini_com : Nat
  arcanecodex_dev : Nat
  mail : Nat
  stats : Nat
  laptop_tunnel : Nat
  bucketbot : Nat
deriving DecidableEq, Repr

/-- Each probe resolves within its configured timeout (part_001 lines
8-15: 5000, 5000, 30000, 5000, 3000, 3000 milliseconds). -/
def withinTimeouts (d : ProbeDurations) : Prop :=
  d.sumeetsaini_com ≤ 5000 ∧ d.arcanecodex_dev ≤ 5000 ∧ d.mail ≤ 30000 ∧
  d.stats ≤ 5000 ∧ d.laptop_tunnel ≤ 3000 ∧ d.bucketbot ≤ 3000

instance (d : ProbeDurations) : Decidable (withinTimeouts d) := by
  unfold withinTimeouts; infer_instance

/-- Elapsed time of one status request: the probes are awaited in
sequence (part_001 lines 108-124), so the durations add up. -/
def statusRouteElapsed (d : ProbeDurations) : Nat :=
  d.sumeetsaini_com + d.arcanecodex_dev + d.mail + d.stats + d.laptop_tunnel + d.bucketbot

/-- Largest configured per-probe timeout (the mail probe, 30000 ms). -/
def maxProbeTimeout : Nat := 30000

/-- Duration assignment where every network probe takes its full
timeout and the local container check is instantaneous. -/
def fullTimeoutDurations : ProbeDurations :=
  { sumeetsaini_com := 5000, arcanecodex_dev := 5000, mail := 30000,
    stats := 5000, laptop_tunnel := 3000, bucketbot := 0 }

/-! ## Copy stage (backup-manager `copyFiles`)

The backup directory is modelled as a map from file name to file
content; `fs.writeFile` is a point update.  One entry of the source
directory listing records whether `fs.stat` reports a regular file and
whether reading it succeeds (`readable = false` embeds a rejecting
`fs.readFile`, e.g. an unreadable file). -/

/-- A directory as a partial map from file name to content. -/
def DirMap : Type := String → Option String

/-- One entry of the source directory listing. -/
structure SrcEntry where
  name : String
  isFile : Bool
  readable : Bool
  content : String
deriving DecidableEq, Repr

/-- The empty backup directory. -/
def emptyDir : DirMap := fun _ => none

/-- Effect of `fs.writeFile(backupPath, content)`: create or overwrite
exactly the named file. -/
def writeFileD (d : DirMap) (n c : String) : DirMap :=
  fun m => if m = n then some c else d m

/-- Copy stage of src/src/utils/backup-manager.js (lines 215-234).  The
per-file body has no try/catch: the first entry whose read fails makes
the whole function reject (the error name is returned), and the
remaining entries are not processed.  Writes made before the failure
persist. -/
def copyFiles : List SrcEntry → DirMap → DirMap × Option String
  | [], b => (b, none)
  | e :: rest, b =>
    if e.isFile then
      if e.readable then copyFiles rest (writeFileD b e.name e.content)
      else (b, some e.name)
    else copyFiles rest b

/-- Copy stage of src/unnamed/part_006 (lines 182-206).  Each entry is
processed inside its own try/catch: a failing entry is logged and
skipped, and copying continues with the remaining entries; the function
always resolves. -/
def copyFilesP6 : List SrcEntry → DirMap → DirMap
  | [], b => b
  | e :: rest, b =>
    if e.isFile then
      if e.readable then copyFilesP6 rest (writeFileD b e.name e.content)
      else copyFilesP6 rest b
    else copyFilesP6 rest b

/-- Source listing with one unreadable file followed by two readable
ones. -/
def unreadableFirstSrc : List SrcEntry :=
  [{ name := "a.csv", isFile := true, readable := false, content := "av" },
   { name := "b.csv", isFile := true, readable := true, content := "bv" },
   { name := "c.csv", isFile := true, readable := true, content := "cv" }]

/-! ## Backup manager (src/src/utils/backup-manager.js)

`backupData` is embedded as a function of an environment describing
which of its external calls succeed on this run, together with explicit
passing of the `isBackingUp` flag.  The returned triple is the flag
value after the call settles, the result object, and the ordered list of
stage/git operations the call performed. -/

/-- Which external operations succeed during one `backupData` run, plus
the relevant configuration.  Each `...Ok` field is true when the
corresponding call resolves and false when it rejects/throws. -/
structure BackupEnv where
  nodeEnv : String
  gitLoaded : Bool
  copyOk : Bool
  copyErrMsg : String
  statusOk : Bool
  isClean : Bool
  addOk : Bool
  commitOk : Bool
  pushConfigured : Bool
  pushOk : Bool
  pushErrMsg : String
  manualAddOk : Bool
  manualCommitOk : Bool
  manualPushOk : Bool
  manualPushErrMsg : String
  manualErrMsg : String
deriving DecidableEq, Repr

/-- The plain result object `backupData` resolves with. -/
structure JsResult where
  success : Bool
  message : Option String := none
  pushError : Option String := none
  error : Option String := none
deriving DecidableEq, Repr

/-- Operations performed by a backup run, in order. -/
inductive GitOp where
  | copyStage
  | statusQuery
  | addAll
  | commitOp
  | pushOp
  | manualAdd
  | manualCommit
  | manualPush
deriving DecidableEq, Repr

/-- Commit message, line 169: `Backup from <trigger> - <timestamp>`. -/
def backupMessage (trigger ts : String) : String :=
  "Backup from " ++ trigger ++ " - " ++ ts

/-- Result for a clean working tree, line 201. -/
def noChangesResult : JsResult :=
  { success := true, message := some "No changes to backup" }

/-- Result when commit (and push, if configured) succeed, line 198. -/
def successResult (trigger ts : String) : JsResult :=
  { success := true, message := some (backupMessage trigger ts) }

/-- Result when the local commit succeeded but the push failed, line
192: still a success, annotated with the push error detail. -/
def pushFailResult (trigger ts msg : String) : JsResult :=
  { success := true, message := some (backupMessage trigger ts ++ " (push failed)"),
    pushError := some msg }

/-- Result when an error is caught at the outer boundary, line 209. -/
def failedResult (msg : String) : JsResult :=
  { success := false, error := some msg }

/-- Result returned outside production mode (line 140) and when `git`
is not initialized (line 158). -/
def disabledResult : JsResult :=
  { success := false, message := some "Development mode - backup disabled" }

/-- Result returned when a backup is already in progress, line 145. -/
def skippedResult : JsResult :=
  { success := false, message := some "Backup already in progress" }

/-- Prefix already-performed operations onto a (result, operations)
pair. -/
def prependOps (ops : List GitOp) (p : JsResult × List GitOp) : JsResult × List GitOp :=
  (p.1, ops ++ p.2)

/-- Manual fallback `backupWithManualCommands` (lines 256-294): `git
add`, `git commit`, then — when a remote is configured — branch query
and `git push` inside their own try/catch.  A push failure still yields
a success result with the push error attached (line 285); an add/commit
failure is caught at the bottom and yields a failed result (line 292). -/
def backupWithManualCommands (e : BackupEnv) (trigger ts : String) :
    JsResult × List GitOp :=
  if e.manualAddOk then
    if e.manualCommitOk then
      if e.pushConfigured then
        if e.manualPushOk then
          (successResult trigger ts, [.manualAdd, .manualCommit, .manualPush])
        else
          (pushFailResult trigger ts e.manualPushErrMsg,
           [.manualAdd, .manualCommit, .manualPush])
      else (successResult trigger ts, [.manualAdd, .manualCommit])
    else (failedResult e.manualErrMsg, [.manualAdd, .manualCommit])
  else (failedResult e.manualErrMsg, [.manualAdd])

/-- Primary sync stage (lines 162-206): `git.status()`; if the tree is
clean return the no-changes result at once, otherwise stage, commit and
— when a remote is configured — push, a push failure being downgraded to
a success-with-push-failure result (lines 189-193).  Any error from
status/add/commit falls into the `gitError` catch (line 203), which
delegates to the manual fallback. -/
def syncPrimary (e : BackupEnv) (trigger ts : String) : JsResult × List GitOp :=
  if e.statusOk then
    if e.isClean then (noChangesResult, [.statusQuery])
    else
      if e.addOk then
        if e.commitOk then
          if e.pushConfigured then
            if e.pushOk then
              (successResult trigger ts, [.statusQuery, .addAll, .commitOp, .pushOp])
            else
              (pushFailResult trigger ts e.pushErrMsg,
               [.statusQuery, .addAll, .commitOp, .pushOp])
          else (successResult trigger ts, [.statusQuery, .addAll, .commitOp])
        else prependOps [.statusQuery, .addAll, .commitOp]
               (backupWithManualCommands e trigger ts)
      else prependOps [.statusQuery, .addAll] (backupWithManualCommands e trigger ts)
  else prependOps [.statusQuery] (backupWithManualCommands e trigger ts)

/-- Body of `backupData` between setting and clearing `isBackingUp`
(lines 150-209): copy stage first; a copy failure is caught by the outer
catch (line 207) and becomes a failed result; without an initialized
git handle the run returns the disabled result (line 158); otherwise the
sync stage runs. -/
def backupBody (e : BackupEnv) (trigger ts : String) : JsResult × List GitOp :=
  if e.copyOk then
    if e.gitLoaded then prependOps [.copyStage] (syncPrimary e trigger ts)
    else (disabledResult, [.copyStage])
  else (failedResult e.copyErrMsg, [.copyStage])

/-- `backupData` (lines 137-213) as one settled call: production check,
non-blocking busy check, synchronous set of `isBackingUp`, body, and the
`finally` that clears the flag on every path.  Returns the flag value
after the call settles, the result, and the operations performed. -/
def backupData (e : BackupEnv) (trigger ts : String) (isBackingUp : Bool) :
    Bool × JsResult × List GitOp :=
  if e.nodeEnv = "prod" then
    if isBackingUp then (isBackingUp, skippedResult, [])
    else
      let p := backupBody e trigger ts
      (false, p.1, p.2)
  else (isBackingUp, disabledResult, [])

/-- Environment of a production run in which every external call
succeeds. -/
def prodEnvAllOk : BackupEnv :=
  { nodeEnv := "prod", gitLoaded := true, copyOk := true, copyErrMsg := "",
    statusOk := true, isClean := false, addOk := true, commitOk := true,
    pushConfigured := true, pushOk := true, pushErrMsg := "",
    manualAddOk := true, manualCommitOk := true, manualPushOk := true,
    manualPushErrMsg := "", manualErrMsg := "" }

/-! ## Backup middleware (src/unnamed/part_004) -/

/-- The middleware schedules a background `backupData` call exactly when
`process.env.NODE_ENV === 'production'` (part_004 line 11), while
`backupData` itself only acts when `NODE_ENV === 'prod'` (backup-manager
line 139). -/
def backupMiddlewareSchedules (nodeEnv : String) : Bool :=
  nodeEnv == "production"

/-! ## Interleaving machine for concurrent `backupData` triggers

Node.js runs a single-threaded event loop: the code of an async function
between two `await` suspension points executes atomically.  In
`backupData` (production mode) the busy check at line 143 and the
assignment `this.isBackingUp = true` at line 148 are in the same
suspension-free segment — the first `await` of the call is
`await this.copyFiles()` at line 154, after the flag is set.  A task is
therefore: one atomic entry step (check-and-set, or immediate
skipped-concurrent exit), a number of body segments separated by awaits,
and a final segment that clears the flag and settles with the body's
result.  The `done` phase records whether the task executed the body
(`executed = true`) or exited at the busy check. -/

/-- Phase of one in-flight `backupData` task. -/
inductive Phase where
  | start
  | running (k : Nat)
  | done (executed : Bool) (r : JsResult)
deriving DecidableEq, Repr

/-- Whether a task has settled. -/
def Phase.isDone : Phase → Bool
  | .done _ _ => true
  | _ => false

/-- Shared state: the `isBackingUp` flag and the phases of two
triggered tasks. -/
structure MState where
  flag : Bool
  t1 : Phase
  t2 : Phase
deriving DecidableEq, Repr

/-- One atomic segment of a production-mode `backupData` task with `n`
body segments and body result `r`, acting on the shared flag: the entry
segment either exits with the skipped-concurrent result (flag already
true, lines 143-146) or sets the flag and enters the body (line 148);
body segments run without touching the flag; the last segment clears the
flag (the `finally`, line 211) and settles. -/
def stepTask (n : Nat) (r : JsResult) (flag : Bool) : Phase → Bool × Phase
  | .start => if flag then (flag, .done false skippedResult) else (true, .running n)
  | .running 0 => (false, .done true r)
  | .running (k + 1) => (flag, .running k)
  | .done ex x => (flag, .done ex x)

/-- One scheduler step: run the next atomic segment of task 1 or of
task 2. -/
def sysStep (n1 n2 : Nat) (r1 r2 : JsResult) (s : MState) (choose1 : Bool) : MState :=
  if choose1 then
    let p := stepTask n1 r1 s.flag s.t1
    { flag := p.1, t1 := p.2, t2 := s.t2 }
  else
    let p := stepTask n2 r2 s.flag s.t2
    { flag := p.1, t1 := s.t1, t2 := p.2 }

/-- Run a whole schedule of scheduler choices. -/
def sysRun (n1 n2 : Nat) (r1 r2 : JsResult) (sched : List Bool) (s : MState) : MState :=
  sched.foldl (sysStep n1 n2 r1 r2) s

/-- Two back-to-back triggers of the same production backup (body
result `r`): the first chosen task runs its entry segment, the second
task runs its entry segment immediately afterwards — while the first is
still pending — and the scheduler then continues arbitrarily. -/
def backToBack (n1 n2 : Nat) (r : JsResult) (c : Bool) (rest : List Bool) : MState :=
  sysRun n1 n2 r r (c :: (!c) :: rest) { flag := false, t1 := .start, t2 := .start }

/-! ## Helper lemmas -/

lemma sysRun_nil (n1 n2 : Nat) (r1 r2 : JsResult) (s : MState) :
    sysRun n1 n2 r1 r2 [] s = s := rfl

lemma sysRun_cons (n1 n2 : Nat) (r1 r2 : JsResult) (b : Bool) (sched : List Bool)
    (s : MState) :
    sysRun n1 n2 r1 r2 (b :: sched) s =
      sysRun n1 n2 r1 r2 sched (sysStep n1 n2 r1 r2 s b) := rfl

/-- Once both tasks have settled, further scheduling changes nothing. -/
lemma sysRun_done (n1 n2 : Nat) (r1 r2 : JsResult) (e1 e2 : Bool) (x y : JsResult)
    (f : Bool) :
    ∀ sched : List Bool,
      sysRun n1 n2 r1 r2 sched { flag := f, t1 := .done e1 x, t2 := .done e2 y } =
        { flag := f, t1 := .done e1 x, t2 := .done e2 y } := by
  intro sched
  induction sched with
  | nil => rfl
  | cons b rest ih =>
    rw [sysRun_cons]
    cases b <;> simpa [sysStep, stepTask] using ih

/-- From a state where task 1 owns the flag and task 2 has settled, any
schedule under which task 1 also settles ends with task 1 executed, the
flag cleared, and task 2 untouched. -/
lemma sysRun_t1_owner (n1 n2 : Nat) (r1 r2 : JsResult) (ex : Bool) (x : JsResult) :
    ∀ (sched : List Bool) (k : Nat),
      (sysRun n1 n2 r1 r2 sched
          { flag := true, t1 := .running k, t2 := .done ex x }).t1.isDone = true →
      sysRun n1 n2 r1 r2 sched { flag := true, t1 := .running k, t2 := .done ex x } =
        { flag := false, t1 := .done true r1, t2 := .done ex x } := by
  intro sched
  induction sched with
  | nil => intro k h; simp [sysRun_nil, Phase.isDone] at h
  | cons b rest ih =>
    intro k h
    rw [sysRun_cons] at h ⊢
    cases b with
    | true =>
      cases k with
      | zero =>
        have hs : sysStep n1 n2 r1 r2
            { flag := true, t1 := .running 0, t2 := .done ex x } true =
            { flag := false, t1 := .done true r1, t2 := .done ex x } := by
          simp [sysStep, stepTask]
        rw [hs, sysRun_done]
      | succ k₂ =>
        have hs : sysStep n1 n2 r1 r2
            { flag := true, t1 := .running (k₂ + 1), t2 := .done ex x } true =
            { flag := true, t1 := .running k₂, t2 := .done ex x } := by
          simp [sysStep, stepTask]
        rw [hs] at h ⊢
        exact ih k₂ h
    | false =>
      have hs : sysStep n1 n2 r1 r2
          { flag := true, t1 := .running k, t2 := .done ex x } false =
          { flag := true, t1 := .running k, t2 := .done ex x } := by
        simp [sysStep, stepTask]
      rw [hs] at h ⊢
      exact ih k h

/-- Mirror image of `sysRun_t1_owner` for task 2 owning the flag. -/
lemma sysRun_t2_owner (n1 n2 : Nat) (r1 r2 : JsResult) (ex : Bool) (x : JsResult) :
    ∀ (sched : List Bool) (k : Nat),
      (sysRun n1 n2 r1 r2 sched
          { flag := true, t1 := .done ex x, t2 := .running k }).t2.isDone = true →
      sysRun n1 n2 r1 r2 sched { flag := true, t1 := .done ex x, t2 := .running k } =
        { flag := false, t1 := .done ex x, t2 := .done true r2 } := by
  intro sched
  induction sched with
  | nil => intro k h; simp [sysRun_nil, Phase.isDone] at h
  | cons b rest ih =>
    intro k h
    rw [sysRun_cons] at h ⊢
    cases b with
    | false =>
      cases k with
      | zero =>
        have hs : sysStep n1 n2 r1 r2
            { flag := true, t1 := .done ex x, t2 := .running 0 } false =
            { flag := false, t1 := .done ex x, t2 := .done true r2 } := by
          simp [sysStep, stepTask]
        rw [hs, sysRun_done]
      | succ k₂ =>
        have hs : sysStep n1 n2 r1 r2
            { flag := true, t1 := .done ex x, t2 := .running (k₂ + 1) } false =
            { flag := true, t1 := .done ex x, t2 := .running k₂ } := by
          simp [sysStep, stepTask]
        rw [hs] at h ⊢
        exact ih k₂ h
    | true =>
      have hs : sysStep n1 n2 r1 r2
          { flag := true, t1 := .done ex x, t2 := .running k } true =
          { flag := true, t1 := .done ex x, t2 := .running k } := by
        simp [sysStep, stepTask]
      rw [hs] at h ⊢
      exact ih k h

lemma writeFileD_isSome (b : DirMap) (nm c m : String) (h : (b m).isSome = true) :
    ((writeFileD b nm c) m).isSome = true := by
  unfold writeFileD
  split
  · rfl
  · exact h

lemma writeFileD_ne (b : DirMap) (nm c m : String) (h : ¬ m = nm) :
    writeFileD b nm c m = b m := by
  unfold writeFileD
  exact if_neg h

/-- The aborting copy stage never deletes a file from the backup
directory. -/
lemma copyFiles_preserves :
    ∀ (src : List SrcEntry) (b : DirMap) (m : String),
      (b m).isSome = true → (((copyFiles src b).1) m).isSome = true := by
  intro src
  induction src with
  | nil => intro b m h; exact h
  | cons e rest ih =>
    intro b m h
    cases hf : e.isFile with
    | false => simp only [copyFiles, hf]; exact ih b m h
    | true =>
      cases hr : e.readable with
      | false => simp only [copyFiles, hf, hr]; exact h
      | true =>
        simp only [copyFiles, hf, hr, if_true]
        exact ih _ m (writeFileD_isSome b e.name e.content m h)

/-- A file whose content changed during the aborting copy stage was
copied from a same-named readable source file. -/
lemma copyFiles_changed :
    ∀ (src : List SrcEntry) (b : DirMap) (m : String),
      (copyFiles src b).1 m ≠ b m →
      ∃ e ∈ src, e.name = m ∧ e.isFile = true ∧ e.readable = true := by
  intro src
  induction src with
  | nil => intro b m h; exact absurd rfl h
  | cons e rest ih =>
    intro b m h
    cases hf : e.isFile with
    | false =>
      simp only [copyFiles, hf] at h
      obtain ⟨e₂, he₂, hp⟩ := ih b m h
      exact ⟨e₂, List.mem_cons_of_mem _ he₂, hp⟩
    | true =>
      cases hr : e.readable with
      | false =>
        simp only [copyFiles, hf, hr] at h
        exact absurd rfl h
      | true =>
        by_cases hm : m = e.name
        · exact ⟨e, List.mem_cons_self e rest, hm.symm, hf, hr⟩
        · simp only [copyFiles, hf, hr, if_true] at h
          by_cases h₂ :
              (copyFiles rest (writeFileD b e.name e.content)).1 m =
                writeFileD b e.name e.content m
          · rw [h₂, writeFileD_ne b e.name e.content m hm] at h
            exact absurd rfl h
          · obtain ⟨e₂, he₂, hp⟩ := ih _ m h₂
            exact ⟨e₂, List.mem_cons_of_mem _ he₂, hp⟩

/-- The tolerant copy stage never deletes a file from the backup
directory. -/
lemma copyFilesP6_preserves :
    ∀ (src : List SrcEntry) (b : DirMap) (m : String),
      (b m).isSome = true → ((copyFilesP6 src b) m).isSome = true := by
  intro src
  induction src with
  | nil => intro b m h; exact h
  | cons e rest ih =>
    intro b m h
    cases hf : e.isFile with
    | false => simp only [copyFilesP6, hf]; exact ih b m h
    | true =>
      cases hr : e.readable with
      | false => simp only [copyFilesP6, hf, hr]; exact ih b m h
      | true =>
        simp only [copyFilesP6, hf, hr, if_true]
        exact ih _ m (writeFileD_isSome b e.name e.content m h)

/-- A file whose content changed during the tolerant copy stage was
copied from a same-named readable source file. -/
lemma copyFilesP6_changed :
    ∀ (src : List SrcEntry) (b : DirMap) (m : String),
      copyFilesP6 src b m ≠ b m →
      ∃ e ∈ src, e.name = m ∧ e.isFile = true ∧ e.readable = true := by
  intro src
  induction src with
  | nil => intro b m h; exact absurd rfl h
  | cons e rest ih =>
    intro b m h
    cases hf : e.isFile with
    | false =>
      simp only [copyFilesP6, hf] at h
      obtain ⟨e₂, he₂, hp⟩ := ih b m h
      exact ⟨e₂, List.mem_cons_of_mem _ he₂, hp⟩
    | true =>
      cases hr : e.readable with
      | false =>
        simp only [copyFilesP6, hf, hr] at h
        obtain ⟨e₂, he₂, hp⟩ := ih b m h
        exact ⟨e₂, List.mem_cons_of_mem _ he₂, hp⟩
      | true =>
        by_cases hm : m = e.name
        · exact ⟨e, List.mem_cons_self e rest, hm.symm, hf, hr⟩
        · simp only [copyFilesP6, hf, hr, if_true] at h
          by_cases h₂ :
              copyFilesP6 rest (writeFileD b e.name e.content) m =
                writeFileD b e.name e.content m
          · rw [h₂, writeFileD_ne b e.name e.content m hm] at h
            exact absurd rfl h
          · obtain ⟨e₂, he₂, hp⟩ := ih _ m h₂
            exact ⟨e₂, List.mem_cons_of_mem _ he₂, hp⟩

/-- The computed overall status is healthy exactly when every entry of
the results list is healthy. -/
lemma overallStatus_healthy_iff (rs : List (String × ProbeResult)) :
    overallStatus rs = OverallStatus.healthy ↔
      ∀ kv ∈ rs, kv.2.status = PStatus.healthy := by
  unfold overallStatus
  by_cases h : rs.all (fun kv => kv.2.status == PStatus.healthy) = true
  · rw [if_pos h]
    simp only [List.all_eq_true, beq_iff_eq] at h
    exact iff_of_true rfl h
  · rw [if_neg h]
    constructor
    · intro hc
      exact absurd hc (by decide)
    · intro hall
      exact absurd
        (List.all_eq_true.mpr fun kv hkv => beq_iff_eq.mpr (hall kv hkv)) h

/-! ## Concrete instances used by witnesses -/

/-- Probe inputs with all HTTP targets responding, the TCP tunnel
refused, and the container running. -/
def unhealthyInputs : ProbeInputs :=
  { sumeetsaini_com := .responded 12, arcanecodex_dev := .responded 40,
    mail := .responded 120, stats := .responded 30,
    laptop_tunnel := .socketError "ECONNREFUSED", bucketbot := .inspected true }

/-- Source listing with a single readable file named `old.csv`. -/
def overwritingSrc : List SrcEntry :=
  [{ name := "old.csv", isFile := true, readable := true, content := "v1" }]

/-- Backup directory that already holds `old.csv` with older content. -/
def oldDir : DirMap := writeFileD emptyDir "old.csv" "v0"

/-- Production environment whose push fails with ECONNRESET. -/
def pushFailEnv : BackupEnv :=
  { prodEnvAllOk with pushOk := false, pushErrMsg := "ECONNRESET" }

/-- Production environment forced onto the manual fallback (the
simple-git status call throws) whose manual push fails. -/
def manualPushFailEnv : BackupEnv :=
  { prodEnvAllOk with
    statusOk := false
    manualPushOk := false
    manualPushErrMsg := "auth failed" }

/-- Production environment with a clean backup working tree. -/
def cleanEnv : BackupEnv :=
  { prodEnvAllOk with isClean := true }

/-- Environment as seen by a request in the deployment where
`NODE_ENV` is the string "production". -/
def productionEnv : BackupEnv :=
  { prodEnvAllOk with nodeEnv := "production" }

/-- Body result of an all-successful production backup run. -/
def bodyR0 : JsResult := (backupBody prodEnvAllOk "POST /spend" "T0").1

/-! ## Claim theorems -/

/-- C1: in production mode, a `backupData` call that finds `isBackingUp`
already true returns the skipped-concurrent result immediately without
running any stage; the busy check and the set of the flag are one atomic
event-loop segment, so under any schedule in which a second trigger's
entry runs while the first call is pending, exactly one task executes
the body and the other settles with the skipped-concurrent result, the
flag being false once both have settled; and a call that acquires the
flag leaves it false after it settles, on every exit path. -/
theorem backup_mutex_spec :
    ∀ (e : BackupEnv) (trigger ts : String), e.nodeEnv = "prod" →
      backupData e trigger ts true = (true, skippedResult, []) ∧
      (backupData e trigger ts false).1 = false ∧
      (∀ (n1 n2 : Nat) (c : Bool) (rest : List Bool),
        (backToBack n1 n2 (backupBody e trigger ts).1 c rest).t1.isDone = true →
        (backToBack n1 n2 (backupBody e trigger ts).1 c rest).t2.isDone = true →
        (backToBack n1 n2 (backupBody e trigger ts).1 c rest).flag = false ∧
        (((backToBack n1 n2 (backupBody e trigger ts).1 c rest).t1 =
            Phase.done true (backupBody e trigger ts).1 ∧
          (backToBack n1 n2 (backupBody e trigger ts).1 c rest).t2 =
            Phase.done false skippedResult) ∨
         ((backToBack n1 n2 (backupBody e trigger ts).1 c rest).t1 =
            Phase.done false skippedResult ∧
          (backToBack n1 n2 (backupBody e trigger ts).1 c rest).t2 =
            Phase.done true (backupBody e trigger ts).1))) := by
  intro e trigger ts hprod
  refine ⟨by simp [backupData, hprod], by simp [backupData, hprod], ?_⟩
  intro n1 n2 c rest h1 h2
  cases c with
  | true =>
    have e1 : backToBack n1 n2 (backupBody e trigger ts).1 true rest =
        sysRun n1 n2 (backupBody e trigger ts).1 (backupBody e trigger ts).1 rest
          { flag := true, t1 := Phase.running n1,
            t2 := Phase.done false skippedResult } := by
      simp [backToBack, sysRun_cons, sysStep, stepTask]
    rw [e1] at h1 ⊢
    have hfin := sysRun_t1_owner n1 n2 (backupBody e trigger ts).1
      (backupBody e trigger ts).1 false skippedResult rest n1 h1
    rw [hfin]
    exact ⟨rfl, Or.inl ⟨rfl, rfl⟩⟩
  | false =>
    have e1 : backToBack n1 n2 (backupBody e trigger ts).1 false rest =
        sysRun n1 n2 (backupBody e trigger ts).1 (backupBody e trigger ts).1 rest
          { flag := true, t1 := Phase.done false skippedResult,
            t2 := Phase.running n2 } := by
      simp [backToBack, sysRun_cons, sysStep, stepTask]
    rw [e1] at h2 ⊢
    have hfin := sysRun_t2_owner n1 n2 (backupBody e trigger ts).1
      (backupBody e trigger ts).1 false skippedResult rest n2 h2
    rw [hfin]
    exact ⟨rfl, Or.inr ⟨rfl, rfl⟩⟩

/-- Witness for C1 at a concrete production environment and the
schedule first-trigger, second-trigger, then the first runs to
completion. -/
theorem backup_mutex_spec_witness :
    prodEnvAllOk.nodeEnv = "prod" ∧
    backupData prodEnvAllOk "POST /spend" "T0" true = (true, skippedResult, []) ∧
    (backupData prodEnvAllOk "POST /spend" "T0" false).1 = false ∧
    (backToBack 2 2 bodyR0 true [true, true, true]).flag = false ∧
    (((backToBack 2 2 bodyR0 true [true, true, true]).t1 = Phase.done true bodyR0 ∧
      (backToBack 2 2 bodyR0 true [true, true, true]).t2 =
        Phase.done false skippedResult) ∨
     ((backToBack 2 2 bodyR0 true [true, true, true]).t1 =
        Phase.done false skippedResult ∧
      (backToBack 2 2 bodyR0 true [true, true, true]).t2 = Phase.done true bodyR0)) := by
  have h := backup_mutex_spec prodEnvAllOk "POST /spend" "T0" rfl
  have hb := h.2.2 2 2 true [true, true, true] (by decide) (by decide)
  exact ⟨rfl, h.1, h.2.1, hb.1, hb.2⟩

/-- C2: the aggregate report's overall status is healthy exactly when
every per-service result in the report is healthy, and any single
unhealthy entry forces it to degraded. -/
theorem overall_status_spec :
    (∀ i : ProbeInputs,
      (statusReport i).status = OverallStatus.healthy ↔
        ∀ kv ∈ (statusReport i).services, kv.2.status = PStatus.healthy) ∧
    (∀ i : ProbeInputs, ∀ kv ∈ (statusReport i).services,
      kv.2.status = PStatus.unhealthy →
        (statusReport i).status = OverallStatus.degraded) := by
  constructor
  · intro i
    exact overallStatus_healthy_iff (statusResults i)
  · intro i kv hkv hst
    cases hov : (statusReport i).status with
    | degraded => rfl
    | healthy =>
      have hall := (overallStatus_healthy_iff (statusResults i)).mp hov
      have hh := hall kv hkv
      rw [hst] at hh
      cases hh

/-- Witness for C2: a report with a refused TCP tunnel contains an
unhealthy entry and is degraded. -/
theorem overall_status_spec_witness :
    (("laptop_tunnel", checkTCPPort (TcpEvent.socketError "ECONNREFUSED")) ∈
       (statusReport unhealthyInputs).services ∧
     (checkTCPPort (TcpEvent.socketError "ECONNREFUSED")).status = PStatus.unhealthy) ∧
    (statusReport unhealthyInputs).status = OverallStatus.degraded := by
  refine ⟨⟨by decide, by decide⟩, ?_⟩
  exact overall_status_spec.2 unhealthyInputs
    ("laptop_tunnel", checkTCPPort (TcpEvent.socketError "ECONNREFUSED"))
    (by decide) (by decide)

/-- C3 counterexample: the route awaits its probes sequentially, so when
every probe takes its full configured timeout the request takes 48000
milliseconds — more than the maximum individual probe timeout (30000)
plus a 1000-millisecond grace margin (indeed more than 30000 plus any
margin below 18000). -/
theorem status_sequential_counterexample :
    withinTimeouts fullTimeoutDurations ∧
    statusRouteElapsed fullTimeoutDurations = 48000 ∧
    maxProbeTimeout = 30000 ∧
    ¬ statusRouteElapsed fullTimeoutDurations ≤ maxProbeTimeout + 1000 := by
  decide

/-- C3 amended: the probes are awaited in sequence, so a status request
completes within the sum of the per-probe timeouts (51000 ms for the
configured targets), not within the maximum individual timeout plus a
small grace margin. -/
theorem status_sequential_bound :
    ∀ d : ProbeDurations, withinTimeouts d →
      statusRouteElapsed d ≤ 5000 + 5000 + 30000 + 5000 + 3000 + 3000 := by
  intro d h
  obtain ⟨h1, h2, h3, h4, h5, h6⟩ := h
  unfold statusRouteElapsed
  omega

/-- Witness for the amended C3 at the full-timeout duration
assignment. -/
theorem status_sequential_bound_witness :
    withinTimeouts fullTimeoutDurations ∧
    statusRouteElapsed fullTimeoutDurations ≤ 5000 + 5000 + 30000 + 5000 + 3000 + 3000 :=
  ⟨by decide, status_sequential_bound fullTimeoutDurations (by decide)⟩

/-- C4: every probe resolves with a result whose status is healthy or
unhealthy, whatever event its callbacks receive — connection errors,
name-resolution failures (an error event carrying the code, e.g.
ENOTFOUND), timeouts, and container-runtime errors all funnel into an
unhealthy result instead of escaping; the probes are total functions of
their event, so no rejection reaches the aggregator. -/
theorem probe_no_escape_spec :
    (∀ ev : HttpEvent, (checkService ev).status = PStatus.healthy ∨
       (checkService ev).status = PStatus.unhealthy) ∧
    (∀ ev : TcpEvent, (checkTCPPort ev).status = PStatus.healthy ∨
       (checkTCPPort ev).status = PStatus.unhealthy) ∧
    (∀ o : InspectOutcome, (checkContainerStatus o).status = PStatus.healthy ∨
       (checkContainerStatus o).status = PStatus.unhealthy) ∧
    (∀ code : String, checkService (HttpEvent.socketError code) =
       { status := PStatus.unhealthy, error := some code }) ∧
    checkService HttpEvent.timedOut =
      { status := PStatus.unhealthy, error := some "TIMEOUT" } ∧
    (∀ code : String, checkTCPPort (TcpEvent.socketError code) =
       { status := PStatus.unhealthy, error := some code }) ∧
    checkTCPPort TcpEvent.timedOut =
      { status := PStatus.unhealthy, error := some "TIMEOUT" } ∧
    checkContainerStatus InspectOutcome.inspectError =
      { status := PStatus.unhealthy,
        error := some "Container not found or not running" } := by
  refine ⟨?_, ?_, ?_, fun _ => rfl, rfl, fun _ => rfl, rfl, rfl⟩
  · intro ev
    cases ev
    · exact Or.inl rfl
    · exact Or.inr rfl
    · exact Or.inr rfl
  · intro ev
    cases ev
    · exact Or.inl rfl
    · exact Or.inr rfl
    · exact Or.inr rfl
  · intro o
    cases o with
    | inspected running =>
      cases running with
      | false => exact Or.inr rfl
      | true => exact Or.inl rfl
    | inspectError => exact Or.inr rfl

/-- C5: whenever the local commit succeeds and the subsequent push
fails, the run is reported as a success annotated with the push failure
and the push error detail, on the primary path and on the manual
fallback path alike; a push failure never yields a failed outcome, and
the result propagates unchanged through `backupData`. -/
theorem push_failure_soft_spec :
    ∀ (e : BackupEnv) (trigger ts : String),
      (e.statusOk = true → e.isClean = false → e.addOk = true → e.commitOk = true →
        e.pushConfigured = true → e.pushOk = false →
        (syncPrimary e trigger ts).1 = pushFailResult trigger ts e.pushErrMsg) ∧
      (e.manualAddOk = true → e.manualCommitOk = true → e.pushConfigured = true →
        e.manualPushOk = false →
        (backupWithManualCommands e trigger ts).1 =
          pushFailResult trigger ts e.manualPushErrMsg) ∧
      (∀ m : String, (pushFailResult trigger ts m).success = true ∧
        (pushFailResult trigger ts m).pushError = some m) ∧
      (e.nodeEnv = "prod" → e.copyOk = true → e.gitLoaded = true →
        (backupData e trigger ts false).2.1 = (syncPrimary e trigger ts).1) := by
  intro e trigger ts
  refine ⟨?_, ?_, fun m => ⟨rfl, rfl⟩, ?_⟩
  · intro hs hc ha hcm hp hpo
    simp [syncPrimary, hs, hc, ha, hcm, hp, hpo]
  · intro hma hmc hp hmp
    simp [backupWithManualCommands, hma, hmc, hp, hmp]
  · intro hprod hcopy hgit
    simp [backupData, backupBody, prependOps, hprod, hcopy, hgit]

/-- Witness for C5 at concrete environments: a primary-path run whose
push is reset and a fallback run whose manual push is rejected. -/
theorem push_failure_soft_spec_witness :
    (pushFailEnv.statusOk = true ∧ pushFailEnv.isClean = false ∧
     pushFailEnv.addOk = true ∧ pushFailEnv.commitOk = true ∧
     pushFailEnv.pushConfigured = true ∧ pushFailEnv.pushOk = false ∧
     (syncPrimary pushFailEnv "POST /spend" "T0").1 =
       pushFailResult "POST /spend" "T0" "ECONNRESET" ∧
     (backupData pushFailEnv "POST /spend" "T0" false).2.1 =
       (syncPrimary pushFailEnv "POST /spend" "T0").1) ∧
    (manualPushFailEnv.manualAddOk = true ∧ manualPushFailEnv.manualCommitOk = true ∧
     manualPushFailEnv.pushConfigured = true ∧ manualPushFailEnv.manualPushOk = false ∧
     (backupWithManualCommands manualPushFailEnv "POST /spend" "T0").1 =
       pushFailResult "POST /spend" "T0" "auth failed") ∧
    (pushFailResult "POST /spend" "T0" "ECONNRESET").success = true ∧
    (pushFailResult "POST /spend" "T0" "ECONNRESET").pushError = some "ECONNRESET" := by
  have h1 := push_failure_soft_spec pushFailEnv "POST /spend" "T0"
  have h2 := push_failure_soft_spec manualPushFailEnv "POST /spend" "T0"
  refine ⟨⟨rfl, rfl, rfl, rfl, rfl, rfl, ?_, ?_⟩, ⟨rfl, rfl, rfl, rfl, ?_⟩, rfl, rfl⟩
  · exact h1.1 rfl rfl rfl rfl rfl rfl
  · exact h1.2.2.2 rfl rfl rfl
  · exact h2.2.1 rfl rfl rfl rfl

/-- C6: a sync-stage invocation that finds the backup working tree
clean returns the no-changes result at once, performing only the status
query — nothing is staged, no commit is authored, and no push is
attempted. -/
theorem no_changes_spec :
    ∀ (e : BackupEnv) (trigger ts : String),
      e.statusOk = true → e.isClean = true →
      (syncPrimary e trigger ts).1 = noChangesResult ∧
      (syncPrimary e trigger ts).2 = [GitOp.statusQuery] ∧
      GitOp.addAll ∉ (syncPrimary e trigger ts).2 ∧
      GitOp.commitOp ∉ (syncPrimary e trigger ts).2 ∧
      GitOp.manualCommit ∉ (syncPrimary e trigger ts).2 ∧
      GitOp.pushOp ∉ (syncPrimary e trigger ts).2 ∧
      GitOp.manualPush ∉ (syncPrimary e trigger ts).2 := by
  intro e trigger ts hs hc
  have h2 : syncPrimary e trigger ts = (noChangesResult, [GitOp.statusQuery]) := by
    simp [syncPrimary, hs, hc]
  refine ⟨by rw [h2], by rw [h2], ?_, ?_, ?_, ?_, ?_⟩ <;> rw [h2] <;> decide

/-- Witness for C6 at a concrete clean-tree production environment. -/
theorem no_changes_spec_witness :
    cleanEnv.statusOk = true ∧ cleanEnv.isClean = true ∧
    (syncPrimary cleanEnv "POST /spend" "T0").1 = noChangesResult ∧
    (syncPrimary cleanEnv "POST /spend" "T0").2 = [GitOp.statusQuery] := by
  have h := no_changes_spec cleanEnv "POST /spend" "T0" rfl rfl
  exact ⟨rfl, rfl, h.1, h.2.1⟩

/-- C7: the claim holds of the part_006 copy stage but not of the one
in src/src/utils/backup-manager.js.  There, the per-file body has no
try/catch, so on a listing whose first file is unreadable the whole
stage rejects and neither readable file is copied; the part_006 variant
of the very same method skips the unreadable file and copies both. -/
theorem copy_abort_bug :
    (copyFiles unreadableFirstSrc emptyDir).2 = some "a.csv" ∧
    (copyFiles unreadableFirstSrc emptyDir).1 "b.csv" = none ∧
    (copyFiles unreadableFirstSrc emptyDir).1 "c.csv" = none ∧
    copyFilesP6 unreadableFirstSrc emptyDir "b.csv" = some "bv" ∧
    copyFilesP6 unreadableFirstSrc emptyDir "c.csv" = some "cv" := by
  decide

/-- C8 counterexample: a container that exists but is stopped makes
`container.inspect()` resolve with `Running = false`, and the probe then
reports unhealthy with zero elapsed time and no error message — not the
generic "not found or not running" message the claim requires for every
error case. -/
theorem container_stopped_counterexample :
    (checkContainerStatus (InspectOutcome.inspected false)).status = PStatus.unhealthy ∧
    (checkContainerStatus (InspectOutcome.inspected false)).response_time = some "0ms" ∧
    (checkContainerStatus (InspectOutcome.inspected false)).error = none ∧
    ¬ (checkContainerStatus (InspectOutcome.inspected false)).error =
        some "Container not found or not running" := by
  decide

/-- C8 amended: the container probe reports healthy with fixed zero
elapsed time when the container is running; unhealthy with the generic
"not found or not running" message when the inspect call throws (runtime
unavailable, container absent); and unhealthy with zero elapsed time and
no error message when the container exists but is not running. -/
theorem container_probe_spec :
    checkContainerStatus (InspectOutcome.inspected true) =
      { status := PStatus.healthy, response_time := some "0ms" } ∧
    checkContainerStatus (InspectOutcome.inspected false) =
      { status := PStatus.unhealthy, response_time := some "0ms" } ∧
    checkContainerStatus InspectOutcome.inspectError =
      { status := PStatus.unhealthy,
        error := some "Container not found or not running" } := by
  decide

/-- C9: neither copy-stage variant ever deletes a file from the backup
directory — every file present before is present afterward — and a
file's content changes only when a same-named readable regular file
exists in the source listing. -/
theorem copy_additive_spec :
    ∀ (src : List SrcEntry) (b : DirMap) (m : String),
      ((b m).isSome = true →
        (((copyFiles src b).1) m).isSome = true ∧
        ((copyFilesP6 src b) m).isSome = true) ∧
      ((copyFiles src b).1 m ≠ b m →
        ∃ e ∈ src, e.name = m ∧ e.isFile = true ∧ e.readable = true) ∧
      (copyFilesP6 src b m ≠ b m →
        ∃ e ∈ src, e.name = m ∧ e.isFile = true ∧ e.readable = true) := by
  intro src b m
  exact ⟨fun h => ⟨copyFiles_preserves src b m h, copyFilesP6_preserves src b m h⟩,
         fun h => copyFiles_changed src b m h,
         fun h => copyFilesP6_changed src b m h⟩

/-- Witness for C9: a backup directory already holding `old.csv` still
holds it after both copy variants run, and its content change is
explained by the same-named readable source file. -/
theorem copy_additive_spec_witness :
    ((oldDir "old.csv").isSome = true ∧
     (((copyFiles overwritingSrc oldDir).1) "old.csv").isSome = true ∧
     ((copyFilesP6 overwritingSrc oldDir) "old.csv").isSome = true) ∧
    ((copyFiles overwritingSrc oldDir).1 "old.csv" ≠ oldDir "old.csv" ∧
     ∃ e ∈ overwritingSrc, e.name = "old.csv" ∧ e.isFile = true ∧ e.readable = true) := by
  have h := copy_additive_spec overwritingSrc oldDir "old.csv"
  refine ⟨⟨by decide, (h.1 (by decide)).1, (h.1 (by decide)).2⟩, ⟨by decide, ?_⟩⟩
  exact h.2.1 (by decide)

/-- C10: the middleware schedules a background backup exactly when
`NODE_ENV` is "production", while `backupData` acts only when it is
"prod"; hence for every environment string a middleware-triggered backup
is either never scheduled or returns the disabled result immediately,
performing no operation. -/
theorem middleware_never_backs_up :
    (∀ envName : String, backupMiddlewareSchedules envName = true ↔
       envName = "production") ∧
    (∀ (e : BackupEnv) (trigger ts : String) (flag : Bool),
      ¬ e.nodeEnv = "prod" →
        backupData e trigger ts flag = (flag, disabledResult, [])) ∧
    (∀ (e : BackupEnv) (trigger ts : String) (flag : Bool),
      backupMiddlewareSchedules e.nodeEnv = false ∨
        backupData e trigger ts flag = (flag, disabledResult, [])) := by
  refine ⟨?_, ?_, ?_⟩
  · intro envName
    simp [backupMiddlewareSchedules]
  · intro e trigger ts flag h
    simp [backupData, h]
  · intro e trigger ts flag
    by_cases h : e.nodeEnv = "production"
    · right
      have hne : ¬ e.nodeEnv = "prod" := by rw [h]; decide
      simp [backupData, hne]
    · left
      simp [backupMiddlewareSchedules, h]

/-- Witness for C10 in the deployment where `NODE_ENV` is "production":
the middleware schedules the call and the call returns the disabled
result, touching nothing. -/
theorem middleware_never_backs_up_witness :
    backupMiddlewareSchedules productionEnv.nodeEnv = true ∧
    ¬ productionEnv.nodeEnv = "prod" ∧
    backupData productionEnv "POST /spend" "T0" false = (false, disabledResult, []) := by
  refine ⟨by decide, by decide, ?_⟩
  exact middleware_never_backs_up.2.1 productionEnv "POST /spend" "T0" false (by decide)

end Vulkan
